import Mathlib

/-!
Verification of the grid module of claude-canvas.

This file is a shallow embedding, in Lean 4, of the pure grid logic of the
repository: the cell calculator (`src/grid/cell-calculator.ts`), the shared
grid types and helpers (`src/grid/types.ts`) and the grid manager
(`src/grid/grid-manager.ts`).  JavaScript numbers are modelled as `Int`
(all the embedded code paths only perform integer arithmetic;
`Math.floor(a / b)` is modelled by `Int.fdiv`, floor division, and the
JavaScript remainder `a % b` by `Int.tmod`, which agree with the
JavaScript semantics on the relevant operands).  Strings are Lean
`String`s; the regular expressions used by the source are modelled by
equivalent deterministic scanners over `String.data` (the character
classes of each regex are disjoint, so greedy matching is deterministic
and the scanners below recognise exactly the same language and produce
the same capture groups).  Functions that read the system clock
(`new Date().toISOString()`) receive the produced timestamp as an
explicit `now` argument.  Functions that `throw` return `Except`.
-/

/-! ### Character and string primitives -/

/-- Character class `[A-Z]` (by code point, as the source regexes use it). -/
def isUpperAlpha (c : Char) : Bool :=
  decide (65 ≤ c.toNat) && decide (c.toNat ≤ 90)

/-- Character class `\d`, i.e. `[0-9]`. -/
def isDigitCh (c : Char) : Bool :=
  decide (48 ≤ c.toNat) && decide (c.toNat ≤ 57)

/-- Character class `\s`, restricted to the ASCII whitespace characters
(space, tab, line feed, carriage return); the embedded strings never
contain the other Unicode whitespace code points. -/
def isSpaceCh (c : Char) : Bool :=
  decide (c.toNat = 32) || decide (c.toNat = 9) || decide (c.toNat = 10) ||
    decide (c.toNat = 13)

/-- JavaScript `String.prototype.toUpperCase`, on one character (ASCII range; the
embedded code only distinguishes letters, digits, and punctuation). -/
def toUpperCh (c : Char) : Char :=
  if 97 ≤ c.toNat ∧ c.toNat ≤ 122 then Char.ofNat (c.toNat - 32) else c

/-- JavaScript `String.prototype.trim` on a character list: drop whitespace from
both ends. -/
def trimList (l : List Char) : List Char :=
  ((l.dropWhile isSpaceCh).reverse.dropWhile isSpaceCh).reverse

/-- The decimal digits of a natural number, as characters
(`Number.prototype.toString` for non-negative integers). -/
def natDigits (n : Nat) : List Char :=
  if h : n < 10 then [Char.ofNat (48 + n)]
  else natDigits (n / 10) ++ [Char.ofNat (48 + n % 10)]
decreasing_by
  exact Nat.div_lt_self (by omega) (by omega)

/-- JavaScript `Number.prototype.toString` for integers: decimal digits, with a
leading minus sign when negative. -/
def intDigits (n : Int) : List Char :=
  if n < 0 then '-' :: natDigits (-n).toNat else natDigits n.toNat

/-- Template-literal interpolation `${n}` of an integer. -/
def intToStr (n : Int) : String :=
  ⟨intDigits n⟩

/-- JavaScript `parseInt(_, 10)` on a non-empty list of decimal digit characters
(the only way the source applies it, since the digits were produced by a
`\d+` capture group). -/
def decodeDigits (d : List Char) : Int :=
  d.foldl (fun acc ch => acc * 10 + ((ch.toNat : Int) - 48)) 0

/-! ### Grid data model (`src/grid/types.ts`) -/

/-- Cell address in the grid (0-indexed). -/
structure CellAddress where
  row : Int
  column : Int
deriving Repr, DecidableEq

/-- Cell span: top-left corner and span dimensions. -/
structure CellSpan where
  startRow : Int
  startColumn : Int
  rowSpan : Int
  columnSpan : Int
deriving Repr, DecidableEq

/-- Pixel rectangle for window positioning. -/
structure PixelRect where
  x : Int
  y : Int
  width : Int
  height : Int
deriving Repr, DecidableEq

/-- Monitor information, restricted to the work-area fields, the only
fields the embedded functions read. -/
structure MonitorInfo where
  workAreaX : Int
  workAreaY : Int
  workAreaWidth : Int
  workAreaHeight : Int
deriving Repr, DecidableEq

/-- Grid configuration for a virtual desktop. -/
structure GridConfig where
  rows : Int
  columns : Int
  monitorIndex : Int
  cellGapHorizontal : Int
  cellGapVertical : Int
  marginTop : Int
  marginBottom : Int
  marginLeft : Int
  marginRight : Int
deriving Repr, DecidableEq

/-- Cell assignment: links a window to grid cells.  The optional and
never-written `zIndex` field is omitted. -/
structure CellAssignment where
  windowId : String
  cellSpan : CellSpan
deriving Repr, DecidableEq

/-- Grid state for a desktop. -/
structure GridState where
  desktopIndex : Int
  config : GridConfig
  assignments : List CellAssignment
  lastUpdated : String
deriving Repr, DecidableEq

/-- Check if two cell spans overlap (`cellSpansOverlap` in `types.ts`). -/
def cellSpansOverlap (a b : CellSpan) : Bool :=
  let aEndRow := a.startRow + a.rowSpan - 1
  let aEndCol := a.startColumn + a.columnSpan - 1
  let bEndRow := b.startRow + b.rowSpan - 1
  let bEndCol := b.startColumn + b.columnSpan - 1
  !(decide (aEndRow < b.startRow) || decide (a.startRow > bEndRow) ||
    decide (aEndCol < b.startColumn) || decide (a.startColumn > bEndCol))

/-- Check if a cell span is within grid bounds (`isWithinGrid` in
`types.ts`). -/
def isWithinGrid (span : CellSpan) (config : GridConfig) : Bool :=
  decide (span.startRow ≥ 0) && decide (span.startColumn ≥ 0) &&
    decide (span.startRow + span.rowSpan ≤ config.rows) &&
    decide (span.startColumn + span.columnSpan ≤ config.columns)

/-! ### Cell calculator (`src/grid/cell-calculator.ts`) -/

/-- Calculate pixel rectangle for a cell span (`calculateCellRect`). -/
def calculateCellRect (cellSpan : CellSpan) (config : GridConfig)
    (monitor : MonitorInfo) : PixelRect :=
  let availableWidth := monitor.workAreaWidth - config.marginLeft - config.marginRight
  let availableHeight := monitor.workAreaHeight - config.marginTop - config.marginBottom
  let totalHGap := (config.columns - 1) * config.cellGapHorizontal
  let totalVGap := (config.rows - 1) * config.cellGapVertical
  let cellWidth := Int.fdiv (availableWidth - totalHGap) config.columns
  let cellHeight := Int.fdiv (availableHeight - totalVGap) config.rows
  { x := monitor.workAreaX + config.marginLeft +
         cellSpan.startColumn * (cellWidth + config.cellGapHorizontal)
    y := monitor.workAreaY + config.marginTop +
         cellSpan.startRow * (cellHeight + config.cellGapVertical)
    width := cellSpan.columnSpan * cellWidth +
             (cellSpan.columnSpan - 1) * config.cellGapHorizontal
    height := cellSpan.rowSpan * cellHeight +
              (cellSpan.rowSpan - 1) * config.cellGapVertical }

/-- Pair `{ width, height }` as returned by `calculateSingleCellSize`. -/
structure CellSize where
  width : Int
  height : Int
deriving Repr, DecidableEq

/-- Calculate dimensions for a single cell (`calculateSingleCellSize`). -/
def calculateSingleCellSize (config : GridConfig) (monitor : MonitorInfo) : CellSize :=
  let availableWidth := monitor.workAreaWidth - config.marginLeft - config.marginRight
  let availableHeight := monitor.workAreaHeight - config.marginTop - config.marginBottom
  let totalHGap := (config.columns - 1) * config.cellGapHorizontal
  let totalVGap := (config.rows - 1) * config.cellGapVertical
  { width := Int.fdiv (availableWidth - totalHGap) config.columns
    height := Int.fdiv (availableHeight - totalVGap) config.rows }

/-- Pair `{ horizontal, vertical }` as returned by
`calculateRemainingSpace`. -/
structure RemainingSpace where
  horizontal : Int
  vertical : Int
deriving Repr, DecidableEq

/-- Calculate remaining space distribution (`calculateRemainingSpace`):
pixels of the available area not covered by cells and gaps. -/
def calculateRemainingSpace (config : GridConfig) (monitor : MonitorInfo) : RemainingSpace :=
  let availableWidth := monitor.workAreaWidth - config.marginLeft - config.marginRight
  let availableHeight := monitor.workAreaHeight - config.marginTop - config.marginBottom
  let totalHGap := (config.columns - 1) * config.cellGapHorizontal
  let totalVGap := (config.rows - 1) * config.cellGapVertical
  let cellWidth := Int.fdiv (availableWidth - totalHGap) config.columns
  let cellHeight := Int.fdiv (availableHeight - totalVGap) config.rows
  let usedWidth := cellWidth * config.columns + totalHGap
  let usedHeight := cellHeight * config.rows + totalVGap
  { horizontal := availableWidth - usedWidth
    vertical := availableHeight - usedHeight }

/-- The column-letter loop of `cellToExcelNotation`: the do/while loop
`colStr = String.fromCharCode(65 + (c % 26)) + colStr; c = Math.floor(c / 26) - 1`
run while `c >= 0`, returning the accumulated letters.  `%` on JavaScript
numbers is the sign-of-dividend remainder, `Int.tmod`. -/
def colLetters (c : Int) : List Char :=
  let d := Char.ofNat (65 + Int.tmod c 26).toNat
  if h : 0 ≤ Int.fdiv c 26 - 1 then colLetters (Int.fdiv c 26 - 1) ++ [d] else [d]
termination_by c.toNat
decreasing_by
  rw [Int.fdiv_eq_ediv c (by norm_num)] at h ⊢
  omega

/-- Convert cell address to Excel-style column-letters-plus-row string
(`cellToExcelNotation` in `cell-calculator.ts`; the name is shortened to
keep the file's identifier conventions uniform). -/
def cellToExcel (row column : Int) : String :=
  ⟨colLetters column ++ intDigits (row + 1)⟩

/-- Model of the regex `^([A-Z]+)(\d+)$` of `excelNotationToCell`: the two capture
groups when the whole list matches. -/
def excelMatch (u : List Char) : Option (List Char × List Char) :=
  let colStr := u.takeWhile isUpperAlpha
  let rest := u.dropWhile isUpperAlpha
  if !colStr.isEmpty && !rest.isEmpty && rest.all isDigitCh then
    some (colStr, rest)
  else none

/-- Parse Excel-style column letters: the loop
`column = column * 26 + (colStr.charCodeAt(i) - 64)` over the letters. -/
def decodeColumn (colStr : List Char) : Int :=
  colStr.foldl (fun acc ch => acc * 26 + ((ch.toNat : Int) - 64)) 0

/-- Parse Excel-style cell string to a cell address
(`excelNotationToCell` in `cell-calculator.ts`). -/
def excelToCell (s : String) : Option CellAddress :=
  match excelMatch (s.data.map toUpperCh) with
  | none => none
  | some (colStr, rowStr) =>
    let column := decodeColumn colStr - 1
    let row := decodeDigits rowStr - 1
    if row < 0 ∨ column < 0 then none else some ⟨row, column⟩

/-- Format a cell span as an Excel-style string (`formatCellSpan` in
`cell-calculator.ts`, re-exported as `formatCellSpec` by the grid
manager). -/
def formatCellSpan (span : CellSpan) : String :=
  let startCell := cellToExcel span.startRow span.startColumn
  if span.rowSpan = 1 ∧ span.columnSpan = 1 then startCell
  else
    startCell ++ ":" ++
      cellToExcel (span.startRow + span.rowSpan - 1)
        (span.startColumn + span.columnSpan - 1)

/-! ### Grid manager (`src/grid/grid-manager.ts`) -/

/-- Result of `parseCellSpec`: the source's `{ success, cellSpan?, error? }`
tagged union. -/
inductive CellSpecParseResult where
  | ok (cellSpan : CellSpan)
  | err (error : String)
deriving Repr, DecidableEq

/-- Model of the coordinate regex `^(\d+)\s*,\s*(\d+)(?:\s*:\s*(\d+)\s*[xX]\s*(\d+))?$`
of `parseCellSpec`, yielding `(row, col, rowSpan, colSpan)` with the
parsed integers (span defaulting to `1x1` when the optional group is
absent). -/
def parseCoord (l : List Char) : Option (Int × Int × Int × Int) :=
  let d1 := l.takeWhile isDigitCh
  let r1 := l.dropWhile isDigitCh
  if d1.isEmpty then none else
  match r1.dropWhile isSpaceCh with
  | ',' :: r2 =>
    let r3 := r2.dropWhile isSpaceCh
    let d2 := r3.takeWhile isDigitCh
    let r4 := r3.dropWhile isDigitCh
    if d2.isEmpty then none else
    if r4.isEmpty then some (decodeDigits d1, decodeDigits d2, 1, 1) else
    match r4.dropWhile isSpaceCh with
    | ':' :: r5 =>
      let r6 := r5.dropWhile isSpaceCh
      let d3 := r6.takeWhile isDigitCh
      let r7 := r6.dropWhile isDigitCh
      if d3.isEmpty then none else
      match r7.dropWhile isSpaceCh with
      | x :: r8 =>
        if x = 'x' ∨ x = 'X' then
          let r9 := r8.dropWhile isSpaceCh
          let d4 := r9.takeWhile isDigitCh
          let r10 := r9.dropWhile isDigitCh
          if d4.isEmpty then none else
          if r10.isEmpty then
            some (decodeDigits d1, decodeDigits d2, decodeDigits d3, decodeDigits d4)
          else none
        else none
      | [] => none
    | _ => none
  | _ => none

/-- Model of the Excel-style regex `^([A-Z]+)(\d+)(?::([A-Z]+)(\d+))?$` of
`parseCellSpec`: start column letters, start row digits, and the optional
end-cell groups. -/
def parseExcelSpan (l : List Char) :
    Option (List Char × List Char × Option (List Char × List Char)) :=
  let c1 := l.takeWhile isUpperAlpha
  let r1 := l.dropWhile isUpperAlpha
  if c1.isEmpty then none else
  let d1 := r1.takeWhile isDigitCh
  let r2 := r1.dropWhile isDigitCh
  if d1.isEmpty then none else
  if r2.isEmpty then some (c1, d1, none) else
  match r2 with
  | ':' :: r3 =>
    let c2 := r3.takeWhile isUpperAlpha
    let r4 := r3.dropWhile isUpperAlpha
    if c2.isEmpty then none else
    let d2 := r4.takeWhile isDigitCh
    let r5 := r4.dropWhile isDigitCh
    if d2.isEmpty then none else
    if r5.isEmpty then some (c1, d1, some (c2, d2)) else none
  | _ => none

/-- Parse a cell specification string (`parseCellSpec` in
`grid-manager.ts`): coordinate format first, then Excel-style format,
with reverse Excel ranges normalised so the start is the top-left
corner. -/
def parseCellSpec (spec : String) : CellSpecParseResult :=
  let trimmed := (trimList spec.data).map toUpperCh
  match parseCoord trimmed with
  | some (row, col, rowSpan, colSpan) =>
    if rowSpan < 1 ∨ colSpan < 1 then .err "Span dimensions must be at least 1"
    else .ok ⟨row, col, rowSpan, colSpan⟩
  | none =>
    match parseExcelSpan trimmed with
    | some (startColStr, startRowStr, endGroups) =>
      match excelToCell ⟨startColStr ++ startRowStr⟩ with
      | none => .err ("Invalid cell notation: " ++ String.mk (startColStr ++ startRowStr))
      | some startCell =>
        match endGroups with
        | some (endColStr, endRowStr) =>
          match excelToCell ⟨endColStr ++ endRowStr⟩ with
          | none => .err ("Invalid cell notation: " ++ String.mk (endColStr ++ endRowStr))
          | some endCell =>
            .ok ⟨min startCell.row endCell.row,
                 min startCell.column endCell.column,
                 max startCell.row endCell.row - min startCell.row endCell.row + 1,
                 max startCell.column endCell.column - min startCell.column endCell.column + 1⟩
        | none => .ok ⟨startCell.row, startCell.column, 1, 1⟩
    | none => .err ("Invalid cell specification: " ++ spec)

/-- Result of `validateCellSpan`: `{ valid, error? }`. -/
structure ValidationResult where
  valid : Bool
  error : Option String
deriving Repr, DecidableEq

/-- Guard `excludeWindowId && assignment.windowId === excludeWindowId`
of the overlap loop.  An absent `excludeWindowId` and the empty string
are both falsy in JavaScript, so neither skips anything. -/
def excludeMatches (excludeWindowId : Option String) (windowId : String) : Bool :=
  match excludeWindowId with
  | none => false
  | some e => !(e == "") && windowId == e

/-- The overlap loop of `validateCellSpan` over the assignment list:
skip the excluded window, report the first overlap, succeed at the
end. -/
def overlapScan (cellSpan : CellSpan) (excludeWindowId : Option String) :
    List CellAssignment → ValidationResult
  | [] => ⟨true, none⟩
  | a :: rest =>
    if excludeMatches excludeWindowId a.windowId then
      overlapScan cellSpan excludeWindowId rest
    else if cellSpansOverlap cellSpan a.cellSpan then
      ⟨false, some ("Cell span overlaps with window " ++ a.windowId ++ " at " ++
        formatCellSpan a.cellSpan)⟩
    else overlapScan cellSpan excludeWindowId rest

/-- Validate a cell span against grid bounds and existing assignments
(`validateCellSpan` in `grid-manager.ts`). -/
def validateCellSpan (cellSpan : CellSpan) (gridState : GridState)
    (excludeWindowId : Option String) : ValidationResult :=
  if !(isWithinGrid cellSpan gridState.config) then
    ⟨false, some ("Cell span " ++ formatCellSpan cellSpan ++
      " is outside grid bounds (" ++ intToStr gridState.config.rows ++ "x" ++
      intToStr gridState.config.columns ++ ")")⟩
  else overlapScan cellSpan excludeWindowId gridState.assignments

/-- The row-major candidate origins of `findAvailableSpan`'s nested
loops: `row` from `0` to `rows - rowSpan` (inclusive), `col` from `0` to
`columns - columnSpan` (inclusive). -/
def candidateOrigins (rows columns rowSpan columnSpan : Int) : List (Int × Int) :=
  (List.range (rows - rowSpan + 1).toNat).flatMap fun r =>
    (List.range (columns - columnSpan + 1).toNat).map fun c =>
      (Int.ofNat r, Int.ofNat c)

/-- Find the first available span of the requested size
(`findAvailableSpan` in `grid-manager.ts`): first-fit scan of the
row-major candidate origins. -/
def findAvailableSpan (rowSpan columnSpan : Int) (gridState : GridState) :
    Option CellSpan :=
  match (candidateOrigins gridState.config.rows gridState.config.columns
      rowSpan columnSpan).find?
      (fun rc => (validateCellSpan ⟨rc.1, rc.2, rowSpan, columnSpan⟩ gridState none).valid) with
  | some rc => some ⟨rc.1, rc.2, rowSpan, columnSpan⟩
  | none => none

/-- Assign a window to grid cells (`assignWindowToGrid` in
`grid-manager.ts`); `now` is the timestamp the source takes from
`new Date().toISOString()`. -/
def assignWindowToGrid (windowId : String) (cellSpan : CellSpan)
    (gridState : GridState) (now : String) : GridState :=
  let newAssignments := gridState.assignments.filter fun a => !(a.windowId == windowId)
  { gridState with
    assignments := newAssignments ++ [⟨windowId, cellSpan⟩]
    lastUpdated := now }

/-- Remove a window from the grid (`removeWindowFromGrid`). -/
def removeWindowFromGrid (windowId : String) (gridState : GridState)
    (now : String) : GridState :=
  { gridState with
    assignments := gridState.assignments.filter fun a => !(a.windowId == windowId)
    lastUpdated := now }

/-- Get the cell span of a window (`getWindowCellSpan`). -/
def getWindowCellSpan (windowId : String) (gridState : GridState) : Option CellSpan :=
  match gridState.assignments.find? (fun a => a.windowId == windowId) with
  | some a => some a.cellSpan
  | none => none

/-- Swap the grid positions of two windows (`swapWindowPositions`); the
source throws when either window is unassigned, modelled by `Except`. -/
def swapWindowPositions (windowId1 windowId2 : String) (gridState : GridState)
    (now : String) : Except String GridState :=
  match getWindowCellSpan windowId1 gridState, getWindowCellSpan windowId2 gridState with
  | some span1, some span2 =>
    .ok { gridState with
          assignments := gridState.assignments.map fun a =>
            if a.windowId == windowId1 then { a with cellSpan := span2 }
            else if a.windowId == windowId2 then { a with cellSpan := span1 }
            else a
          lastUpdated := now }
  | _, _ => .error "Both windows must have grid assignments to swap"

/-! ### Character-level lemmas -/

theorem charToNat_ofNat (n : Nat) (h : n < 55296) : (Char.ofNat n).toNat = n := by
  have hv : n.isValidChar := Or.inl h
  rw [Char.ofNat, dif_pos hv]
  rfl

theorem toUpperCh_eq_self {c : Char} (h : c.toNat < 97 ∨ 122 < c.toNat) :
    toUpperCh c = c := by
  unfold toUpperCh
  rw [if_neg]
  omega

theorem isSpaceCh_toUpperCh (c : Char) : isSpaceCh (toUpperCh c) = isSpaceCh c := by
  unfold toUpperCh
  split
  · rename_i h
    have h32 : (Char.ofNat (c.toNat - 32)).toNat = c.toNat - 32 := by
      apply charToNat_ofNat
      omega
    have h1 : isSpaceCh (Char.ofNat (c.toNat - 32)) = false := by
      simp only [isSpaceCh, h32, Bool.or_eq_false_iff, decide_eq_false_iff_not]
      omega
    have h2 : isSpaceCh c = false := by
      simp only [isSpaceCh, Bool.or_eq_false_iff, decide_eq_false_iff_not]
      omega
    rw [h1, h2]
  · rfl

theorem map_toUpperCh_id {l : List Char}
    (h : ∀ ch ∈ l, ch.toNat < 97 ∨ 122 < ch.toNat) : l.map toUpperCh = l := by
  induction l with
  | nil => rfl
  | cons x xs ih =>
    simp only [List.map_cons]
    rw [toUpperCh_eq_self (h x (by simp)), ih]
    intro ch hch
    exact h ch (by simp [hch])

/-! ### Scanning lemmas -/

theorem takeWhile_append_all {p : Char → Bool} {l1 l2 : List Char}
    (h : ∀ x ∈ l1, p x = true) :
    (l1 ++ l2).takeWhile p = l1 ++ l2.takeWhile p := by
  induction l1 with
  | nil => rfl
  | cons x xs ih =>
    simp only [List.cons_append]
    rw [List.takeWhile_cons_of_pos (h x (by simp)), ih fun y hy => h y (by simp [hy])]

theorem dropWhile_append_all {p : Char → Bool} {l1 l2 : List Char}
    (h : ∀ x ∈ l1, p x = true) :
    (l1 ++ l2).dropWhile p = l2.dropWhile p := by
  induction l1 with
  | nil => rfl
  | cons x xs ih =>
    simp only [List.cons_append]
    rw [List.dropWhile_cons_of_pos (h x (by simp)), ih fun y hy => h y (by simp [hy])]

theorem takeWhile_eq_nil_of_head {p : Char → Bool} {l : List Char}
    (h : ∀ x, l.head? = some x → p x = false) : l.takeWhile p = [] := by
  cases l with
  | nil => rfl
  | cons x xs => exact List.takeWhile_cons_of_neg (by simp [h x rfl])

theorem dropWhile_eq_self_of_head {p : Char → Bool} {l : List Char}
    (h : ∀ x, l.head? = some x → p x = false) : l.dropWhile p = l := by
  cases l with
  | nil => rfl
  | cons x xs => exact List.dropWhile_cons_of_neg (by simp [h x rfl])

theorem trimList_id {l : List Char} (h : ∀ c ∈ l, isSpaceCh c = false) :
    trimList l = l := by
  unfold trimList
  have h1 : l.dropWhile isSpaceCh = l :=
    dropWhile_eq_self_of_head fun x hx => h x (List.mem_of_mem_head? hx)
  rw [h1]
  have h2 : l.reverse.dropWhile isSpaceCh = l.reverse :=
    dropWhile_eq_self_of_head fun x hx =>
      h x (List.mem_reverse.mp (List.mem_of_mem_head? hx))
  rw [h2, List.reverse_reverse]

/-! ### Decimal digit lemmas -/

theorem natDigits_ne_nil (n : Nat) : natDigits n ≠ [] := by
  rw [natDigits]
  split <;> simp

theorem natDigits_codes (n : Nat) :
    ∀ ch ∈ natDigits n, 48 ≤ ch.toNat ∧ ch.toNat ≤ 57 := by
  induction n using Nat.strong_induction_on with
  | _ n ih =>
    rw [natDigits]
    split
    · rename_i h
      intro ch hch
      simp only [List.mem_singleton] at hch
      subst hch
      rw [charToNat_ofNat _ (by omega)]
      omega
    · rename_i h
      intro ch hch
      rcases List.mem_append.mp hch with hm | hm
      · exact ih (n / 10) (Nat.div_lt_self (by omega) (by omega)) ch hm
      · simp only [List.mem_singleton] at hm
        subst hm
        rw [charToNat_ofNat _ (by omega)]
        omega

theorem decodeDigits_natDigits (n : Nat) : decodeDigits (natDigits n) = (n : Int) := by
  induction n using Nat.strong_induction_on with
  | _ n ih =>
    rw [natDigits]
    split
    · rename_i h
      simp only [decodeDigits, List.foldl_cons, List.foldl_nil]
      rw [charToNat_ofNat _ (by omega)]
      omega
    · rename_i h
      simp only [decodeDigits, List.foldl_append, List.foldl_cons, List.foldl_nil]
      have hrec := ih (n / 10) (Nat.div_lt_self (by omega) (by omega))
      simp only [decodeDigits] at hrec
      rw [hrec, charToNat_ofNat _ (by omega)]
      omega

/-! ### Column letter lemmas -/

theorem colLetters_ne_nil (c : Int) : colLetters c ≠ [] := by
  rw [colLetters]
  split <;> simp

theorem tmod_cast (m : Nat) : Int.tmod (m : Int) 26 = ((m % 26 : Nat) : Int) := by
  rw [Int.tmod_eq_emod (by omega) (by omega)]
  omega

theorem fdiv_cast (m : Nat) : Int.fdiv (m : Int) 26 = ((m / 26 : Nat) : Int) := by
  rw [Int.fdiv_eq_ediv _ (by omega)]
  omega

theorem colLetters_codes (c : Int) (hc : 0 ≤ c) :
    ∀ ch ∈ colLetters c, 65 ≤ ch.toNat ∧ ch.toNat ≤ 90 := by
  obtain ⟨m, rfl⟩ := Int.eq_ofNat_of_zero_le hc
  induction m using Nat.strong_induction_on with
  | _ m ih =>
    rw [colLetters, tmod_cast, fdiv_cast]
    have hcode : ((65 + ((m % 26 : Nat) : Int))).toNat = 65 + m % 26 := by omega
    split
    · rename_i h
      intro ch hch
      rcases List.mem_append.mp hch with hm | hm
      · have h26 : ((m / 26 : Nat) : Int) - 1 = ((m / 26 - 1 : Nat) : Int) := by omega
        rw [h26] at hm
        exact ih (m / 26 - 1) (by omega) (by omega) ch hm
      · simp only [List.mem_singleton] at hm
        subst hm
        rw [hcode, charToNat_ofNat _ (by omega)]
        omega
    · rename_i h
      intro ch hch
      simp only [List.mem_singleton] at hch
      subst hch
      rw [hcode, charToNat_ofNat _ (by omega)]
      omega

theorem decodeColumn_colLetters (c : Int) (hc : 0 ≤ c) :
    decodeColumn (colLetters c) = c + 1 := by
  obtain ⟨m, rfl⟩ := Int.eq_ofNat_of_zero_le hc
  induction m using Nat.strong_induction_on with
  | _ m ih =>
    rw [colLetters, tmod_cast, fdiv_cast]
    have hcode : ((65 + ((m % 26 : Nat) : Int))).toNat = 65 + m % 26 := by omega
    have hchar : ((Char.ofNat ((65 + ((m % 26 : Nat) : Int))).toNat).toNat : Int)
        = 65 + ((m % 26 : Nat) : Int) := by
      rw [hcode, charToNat_ofNat _ (by omega)]
      omega
    split
    · rename_i h
      simp only [decodeColumn, List.foldl_append, List.foldl_cons, List.foldl_nil]
      have h26 : ((m / 26 : Nat) : Int) - 1 = ((m / 26 - 1 : Nat) : Int) := by omega
      have hrec := ih (m / 26 - 1) (by omega) (by omega)
      simp only [decodeColumn] at hrec
      rw [h26, hrec, hchar]
      have h26le : 26 ≤ m := by omega
      omega
    · rename_i h
      simp only [decodeColumn, List.foldl_cons, List.foldl_nil, hchar]
      have : m < 26 := by omega
      omega

/-! ### Excel-notation round trip -/

theorem isUpperAlpha_false_of_digit {ch : Char} (h : 48 ≤ ch.toNat ∧ ch.toNat ≤ 57) :
    isUpperAlpha ch = false := by
  simp only [isUpperAlpha, Bool.and_eq_false_iff, decide_eq_false_iff_not]
  omega

theorem isDigitCh_true_of_code {ch : Char} (h : 48 ≤ ch.toNat ∧ ch.toNat ≤ 57) :
    isDigitCh ch = true := by
  simp only [isDigitCh, Bool.and_eq_true, decide_eq_true_eq]
  omega

theorem isUpperAlpha_true_of_code {ch : Char} (h : 65 ≤ ch.toNat ∧ ch.toNat ≤ 90) :
    isUpperAlpha ch = true := by
  simp only [isUpperAlpha, Bool.and_eq_true, decide_eq_true_eq]
  omega

theorem excelMatch_append {colStr rowStr : List Char}
    (hc : colStr ≠ []) (hcu : ∀ ch ∈ colStr, isUpperAlpha ch = true)
    (hd : rowStr ≠ []) (hdd : ∀ ch ∈ rowStr, isDigitCh ch = true)
    (hdu : ∀ ch ∈ rowStr, isUpperAlpha ch = false) :
    excelMatch (colStr ++ rowStr) = some (colStr, rowStr) := by
  unfold excelMatch
  have ht : (colStr ++ rowStr).takeWhile isUpperAlpha = colStr := by
    rw [takeWhile_append_all hcu,
      takeWhile_eq_nil_of_head fun x hx => hdu x (List.mem_of_mem_head? hx),
      List.append_nil]
  have hr : (colStr ++ rowStr).dropWhile isUpperAlpha = rowStr := by
    rw [dropWhile_append_all hcu,
      dropWhile_eq_self_of_head fun x hx => hdu x (List.mem_of_mem_head? hx)]
  rw [ht, hr, if_pos]
  simp only [Bool.and_eq_true, Bool.not_eq_true', List.all_eq_true]
  refine ⟨⟨?_, ?_⟩, hdd⟩
  · cases colStr with
    | nil => exact absurd rfl hc
    | cons x xs => rfl
  · cases rowStr with
    | nil => exact absurd rfl hd
    | cons x xs => rfl

theorem excelToCell_cellToExcel (row column : Int) (hr : 0 ≤ row) (hc : 0 ≤ column) :
    excelToCell (cellToExcel row column) = some ⟨row, column⟩ := by
  have hrowdig : intDigits (row + 1) = natDigits (row + 1).toNat := by
    unfold intDigits
    rw [if_neg (by omega)]
  have hcodesL := colLetters_codes column hc
  have hcodesD := natDigits_codes (row + 1).toNat
  unfold cellToExcel excelToCell
  rw [hrowdig]
  have hmapid : ((colLetters column ++ natDigits (row + 1).toNat).map toUpperCh)
      = colLetters column ++ natDigits (row + 1).toNat := by
    apply map_toUpperCh_id
    intro ch hch
    rcases List.mem_append.mp hch with hm | hm
    · have := hcodesL ch hm
      omega
    · have := hcodesD ch hm
      omega
  have hdata : (String.mk (colLetters column ++ natDigits (row + 1).toNat)).data
      = colLetters column ++ natDigits (row + 1).toNat := rfl
  rw [hdata, hmapid, excelMatch_append (colLetters_ne_nil column)
    (fun ch hch => isUpperAlpha_true_of_code (hcodesL ch hch))
    (natDigits_ne_nil _)
    (fun ch hch => isDigitCh_true_of_code (hcodesD ch hch))
    (fun ch hch => isUpperAlpha_false_of_digit (hcodesD ch hch))]
  dsimp only
  rw [decodeColumn_colLetters column hc, decodeDigits_natDigits]
  have hcast : (((row + 1).toNat : Nat) : Int) = row + 1 := by omega
  rw [hcast, if_neg (by omega)]
  have h1 : row + 1 - 1 = row := by omega
  have h2 : column + 1 - 1 = column := by omega
  rw [h1, h2]

/-- C1: for every row ≥ 0 and column ≥ 0, parsing the Excel-style
notation produced for a cell address returns exactly that address: the
bijective base-26 column encoding composed with its inverse parse is the
identity on cell addresses. -/
theorem excel_roundtrip (row column : Int) (hr : 0 ≤ row) (hc : 0 ≤ column) :
    excelToCell (cellToExcel row column) = some ⟨row, column⟩ :=
  excelToCell_cellToExcel row column hr hc

/-- Witness for C1 at the concrete cell address (3, 29). -/
theorem excel_roundtrip_witness :
    0 ≤ (3 : Int) ∧ 0 ≤ (29 : Int) ∧
      excelToCell (cellToExcel 3 29) = some ⟨3, 29⟩ :=
  ⟨by decide, by decide, excel_roundtrip 3 29 (by decide) (by decide)⟩

/-! ### Parsing lemmas -/

theorem ne_nil_isEmpty_false {l : List Char} (h : l ≠ []) : l.isEmpty = false := by
  cases l with
  | nil => exact absurd rfl h
  | cons x xs => rfl

theorem isEmpty_false_ne_nil {l : List Char} (h : l.isEmpty = false) : l ≠ [] := by
  cases l with
  | nil => simp at h
  | cons x xs => simp

theorem takeWhile_all {p : Char → Bool} {l : List Char}
    (h : ∀ x ∈ l, p x = true) : l.takeWhile p = l := by
  induction l with
  | nil => rfl
  | cons x xs ih =>
    rw [List.takeWhile_cons_of_pos (h x (by simp)), ih fun y hy => h y (by simp [hy])]

theorem dropWhile_all {p : Char → Bool} {l : List Char}
    (h : ∀ x ∈ l, p x = true) : l.dropWhile p = [] := by
  induction l with
  | nil => rfl
  | cons x xs ih =>
    rw [List.dropWhile_cons_of_pos (h x (by simp)), ih fun y hy => h y (by simp [hy])]

theorem head?_append_of_ne_nil {l r : List Char} (h : l ≠ []) :
    (l ++ r).head? = l.head? := by
  cases l with
  | nil => exact absurd rfl h
  | cons x xs => rfl

theorem isUpperAlpha_of_mem_digit {ch : Char} (h : isDigitCh ch = true) :
    isUpperAlpha ch = false := by
  simp only [isDigitCh, Bool.and_eq_true, decide_eq_true_eq] at h
  exact isUpperAlpha_false_of_digit h

theorem isDigitCh_of_mem_upper {ch : Char} (h : isUpperAlpha ch = true) :
    isDigitCh ch = false := by
  simp only [isUpperAlpha, Bool.and_eq_true, decide_eq_true_eq] at h
  simp only [isDigitCh, Bool.and_eq_false_iff, decide_eq_false_iff_not]
  omega

theorem isSpaceCh_false_of_ge {ch : Char} (h : 48 ≤ ch.toNat) :
    isSpaceCh ch = false := by
  simp only [isSpaceCh, Bool.or_eq_false_iff, decide_eq_false_iff_not]
  omega

theorem excelMatch_inv {u L D : List Char} (h : excelMatch u = some (L, D)) :
    u = L ++ D ∧ L ≠ [] ∧ (∀ ch ∈ L, isUpperAlpha ch = true) ∧ D ≠ [] ∧
      ∀ ch ∈ D, isDigitCh ch = true := by
  simp only [excelMatch] at h
  split at h
  · rename_i hcond
    rw [Option.some.injEq, Prod.mk.injEq] at h
    obtain ⟨hL, hD⟩ := h
    simp only [Bool.and_eq_true, Bool.not_eq_true'] at hcond
    obtain ⟨⟨e1, e2⟩, e3⟩ := hcond
    subst hL
    subst hD
    refine ⟨(List.takeWhile_append_dropWhile _ _).symm, isEmpty_false_ne_nil e1,
      fun ch hch => List.mem_takeWhile_imp hch, isEmpty_false_ne_nil e2,
      List.all_eq_true.mp e3⟩
  · exact absurd h (by simp)

theorem excelToCell_some_match {s : String} {a : CellAddress}
    (hs : excelToCell s = some a) :
    ∃ L D, excelMatch (s.data.map toUpperCh) = some (L, D) := by
  unfold excelToCell at hs
  cases hEM : excelMatch (s.data.map toUpperCh) with
  | none => rw [hEM] at hs; exact absurd hs (by simp)
  | some pair =>
    obtain ⟨L, D⟩ := pair
    exact ⟨L, D, hEM ▸ rfl⟩

theorem parseCoord_none_of_head {l : List Char}
    (h : ∀ x, l.head? = some x → isDigitCh x = false) : parseCoord l = none := by
  simp only [parseCoord]
  rw [takeWhile_eq_nil_of_head h]
  rfl

theorem parseExcelSpan_range {L1 D1 L2 D2 : List Char}
    (h1 : L1 ≠ []) (hu1 : ∀ ch ∈ L1, isUpperAlpha ch = true)
    (hd1ne : D1 ≠ []) (hd1 : ∀ ch ∈ D1, isDigitCh ch = true)
    (h2 : L2 ≠ []) (hu2 : ∀ ch ∈ L2, isUpperAlpha ch = true)
    (hd2ne : D2 ≠ []) (hd2 : ∀ ch ∈ D2, isDigitCh ch = true) :
    parseExcelSpan ((L1 ++ D1) ++ ':' :: (L2 ++ D2)) =
      some (L1, D1, some (L2, D2)) := by
  have hD1u : ∀ ch ∈ D1, isUpperAlpha ch = false :=
    fun ch hch => isUpperAlpha_of_mem_digit (hd1 ch hch)
  have hD2u : ∀ ch ∈ D2, isUpperAlpha ch = false :=
    fun ch hch => isUpperAlpha_of_mem_digit (hd2 ch hch)
  have hheadD1 : ∀ x, (D1 ++ ':' :: (L2 ++ D2)).head? = some x → isUpperAlpha x = false := by
    intro x hx
    rw [head?_append_of_ne_nil hd1ne] at hx
    exact hD1u x (List.mem_of_mem_head? hx)
  have hheadD2u : ∀ x, D2.head? = some x → isUpperAlpha x = false :=
    fun x hx => hD2u x (List.mem_of_mem_head? hx)
  have htw1 : ((L1 ++ D1) ++ ':' :: (L2 ++ D2)).takeWhile isUpperAlpha = L1 := by
    rw [List.append_assoc, takeWhile_append_all hu1,
      takeWhile_eq_nil_of_head hheadD1, List.append_nil]
  have hdw1 : ((L1 ++ D1) ++ ':' :: (L2 ++ D2)).dropWhile isUpperAlpha
      = D1 ++ ':' :: (L2 ++ D2) := by
    rw [List.append_assoc, dropWhile_append_all hu1,
      dropWhile_eq_self_of_head hheadD1]
  have htw2 : (D1 ++ ':' :: (L2 ++ D2)).takeWhile isDigitCh = D1 := by
    rw [takeWhile_append_all hd1, List.takeWhile_cons_of_neg (by decide),
      List.append_nil]
  have hdw2 : (D1 ++ ':' :: (L2 ++ D2)).dropWhile isDigitCh = ':' :: (L2 ++ D2) := by
    rw [dropWhile_append_all hd1, List.dropWhile_cons_of_neg (by decide)]
  have htw3 : (L2 ++ D2).takeWhile isUpperAlpha = L2 := by
    rw [takeWhile_append_all hu2, takeWhile_eq_nil_of_head hheadD2u, List.append_nil]
  have hdw3 : (L2 ++ D2).dropWhile isUpperAlpha = D2 := by
    rw [dropWhile_append_all hu2, dropWhile_eq_self_of_head hheadD2u]
  have htw4 : D2.takeWhile isDigitCh = D2 := takeWhile_all hd2
  have hdw4 : D2.dropWhile isDigitCh = [] := dropWhile_all hd2
  simp only [parseExcelSpan, htw1, hdw1, htw2, hdw2, htw3, hdw3, htw4, hdw4,
    ne_nil_isEmpty_false h1, ne_nil_isEmpty_false hd1ne,
    ne_nil_isEmpty_false h2, ne_nil_isEmpty_false hd2ne]
  rfl

theorem excelToCell_parts {s : String} {a : CellAddress} {L D : List Char}
    (hs : excelToCell s = some a)
    (hEM : excelMatch (s.data.map toUpperCh) = some (L, D)) :
    excelToCell ⟨L ++ D⟩ = some a := by
  obtain ⟨hu, hLne, hLu, hDne, hDd⟩ := excelMatch_inv hEM
  have hmapid : (L ++ D).map toUpperCh = L ++ D := by
    apply map_toUpperCh_id
    intro ch hch
    rcases List.mem_append.mp hch with hm | hm
    · have := hLu ch hm
      simp only [isUpperAlpha, Bool.and_eq_true, decide_eq_true_eq] at this
      omega
    · have := hDd ch hm
      simp only [isDigitCh, Bool.and_eq_true, decide_eq_true_eq] at this
      omega
  have hsame : excelToCell ⟨L ++ D⟩ = excelToCell s := by
    unfold excelToCell
    have hdata : (String.mk (L ++ D)).data = L ++ D := rfl
    rw [hdata, hmapid, ← hu]
  rw [hsame, hs]

theorem nospace_of_match {l L D : List Char}
    (hmap : l.map toUpperCh = L ++ D)
    (hLu : ∀ ch ∈ L, isUpperAlpha ch = true)
    (hDd : ∀ ch ∈ D, isDigitCh ch = true) :
    ∀ ch ∈ l, isSpaceCh ch = false := by
  intro ch hch
  have hmem : toUpperCh ch ∈ L ++ D := by
    rw [← hmap]
    exact List.mem_map_of_mem toUpperCh hch
  have hcode : 48 ≤ (toUpperCh ch).toNat := by
    rcases List.mem_append.mp hmem with hm | hm
    · have := hLu _ hm
      simp only [isUpperAlpha, Bool.and_eq_true, decide_eq_true_eq] at this
      omega
    · have := hDd _ hm
      simp only [isDigitCh, Bool.and_eq_true, decide_eq_true_eq] at this
      omega
  rw [← isSpaceCh_toUpperCh]
  exact isSpaceCh_false_of_ge hcode

theorem parseCellSpec_pair {s t : String} {a b : CellAddress}
    (hs : excelToCell s = some a) (ht : excelToCell t = some b) :
    parseCellSpec (s ++ ":" ++ t) =
      .ok ⟨min a.row b.row, min a.column b.column,
           max a.row b.row - min a.row b.row + 1,
           max a.column b.column - min a.column b.column + 1⟩ := by
  obtain ⟨L1, D1, hEMs⟩ := excelToCell_some_match hs
  obtain ⟨L2, D2, hEMt⟩ := excelToCell_some_match ht
  obtain ⟨hus, hL1ne, hL1u, hD1ne, hD1d⟩ := excelMatch_inv hEMs
  obtain ⟨hut, hL2ne, hL2u, hD2ne, hD2d⟩ := excelMatch_inv hEMt
  have hdata : (s ++ ":" ++ t).data = s.data ++ ':' :: t.data := by
    rw [String.data_append, String.data_append]
    simp
  have hnospace : ∀ ch ∈ s.data ++ ':' :: t.data, isSpaceCh ch = false := by
    intro ch hch
    rcases List.mem_append.mp hch with hm | hm
    · exact nospace_of_match hus hL1u hD1d ch hm
    · rcases List.mem_cons.mp hm with hm1 | hm1
      · subst hm1
        decide
      · exact nospace_of_match hut hL2u hD2d ch hm1
  have hmap : (s.data ++ ':' :: t.data).map toUpperCh
      = (L1 ++ D1) ++ ':' :: (L2 ++ D2) := by
    rw [List.map_append, List.map_cons, hus, hut]
    have : toUpperCh ':' = ':' := by decide
    rw [this]
  have hcoord : parseCoord ((L1 ++ D1) ++ ':' :: (L2 ++ D2)) = none := by
    apply parseCoord_none_of_head
    intro x hx
    rw [head?_append_of_ne_nil (by simp [hL1ne]), head?_append_of_ne_nil hL1ne] at hx
    exact isDigitCh_of_mem_upper (hL1u x (List.mem_of_mem_head? hx))
  have hexcel := parseExcelSpan_range hL1ne hL1u hD1ne hD1d hL2ne hL2u hD2ne hD2d
  have hstart := excelToCell_parts hs hEMs
  have hend := excelToCell_parts ht hEMt
  simp only [parseCellSpec, hdata, trimList_id hnospace, hmap, hcoord, hexcel,
    hstart, hend]

/-- C4: `parseCellSpec` normalizes every spreadsheet-form range so the
returned span's start is the top-left corner regardless of which corner
appears first: `parseCellSpec "B2:A1"` succeeds with
`{startRow := 0, startColumn := 0, rowSpan := 2, columnSpan := 2}`, and
for any two valid cells `s` and `t` (strings accepted by
`excelToCell`), `parseCellSpec (s ++ ":" ++ t)` equals
`parseCellSpec (t ++ ":" ++ s)`. -/
theorem parseCellSpec_range_comm :
    parseCellSpec "B2:A1" = .ok ⟨0, 0, 2, 2⟩ ∧
      ∀ (s t : String) (a b : CellAddress), excelToCell s = some a →
        excelToCell t = some b →
        parseCellSpec (s ++ ":" ++ t) = parseCellSpec (t ++ ":" ++ s) := by
  constructor
  · decide
  · intro s t a b hs ht
    rw [parseCellSpec_pair hs ht, parseCellSpec_pair ht hs]
    rw [min_comm b.row a.row, min_comm b.column a.column,
      max_comm b.row a.row, max_comm b.column a.column]

/-- Witness for C4 at the concrete cells "B2" and "A1". -/
theorem parseCellSpec_range_comm_witness :
    excelToCell "B2" = some ⟨1, 1⟩ ∧ excelToCell "A1" = some ⟨0, 0⟩ ∧
      parseCellSpec ("B2" ++ ":" ++ "A1") = parseCellSpec ("A1" ++ ":" ++ "B2") :=
  ⟨by decide, by decide,
    parseCellSpec_range_comm.2 "B2" "A1" ⟨1, 1⟩ ⟨0, 0⟩ (by decide) (by decide)⟩

/-- C5: `parseCellSpec` is total, returning a tagged success/failure
result for every input string (never raising), and rejects the
malformed inputs "0,0:0x1" (zero span dimension), "" (empty), "A"
(missing digits) and "1" (missing letters) with human-readable error
strings. -/
theorem parseCellSpec_total_and_rejects :
    (∀ s : String, (∃ sp, parseCellSpec s = .ok sp) ∨ ∃ e, parseCellSpec s = .err e) ∧
      parseCellSpec "0,0:0x1" = .err "Span dimensions must be at least 1" ∧
      parseCellSpec "" = .err "Invalid cell specification: " ∧
      parseCellSpec "A" = .err "Invalid cell specification: A" ∧
      parseCellSpec "1" = .err "Invalid cell specification: 1" := by
  refine ⟨?_, by decide, by decide, by decide, by decide⟩
  intro s
  cases h : parseCellSpec s with
  | ok sp => exact Or.inl ⟨sp, rfl⟩
  | err e => exact Or.inr ⟨e, rfl⟩

/-! ### Overlap-scan lemmas -/

theorem overlapScan_valid_false {cellSpan : CellSpan} {excl : Option String}
    {l : List CellAssignment} {a : CellAssignment} (ha : a ∈ l)
    (hskip : excludeMatches excl a.windowId = false)
    (hov : cellSpansOverlap cellSpan a.cellSpan = true) :
    (overlapScan cellSpan excl l).valid = false := by
  induction l with
  | nil => simp at ha
  | cons x xs ih =>
    rcases List.mem_cons.mp ha with heq | hmem
    · subst heq
      rw [overlapScan, if_neg (by simp [hskip]), if_pos (by simp [hov])]
    · rw [overlapScan]
      split
      · exact ih hmem
      · split
        · rfl
        · exact ih hmem

theorem overlapScan_all_ok {cellSpan : CellSpan} {excl : Option String}
    {l : List CellAssignment}
    (h : ∀ a ∈ l, excludeMatches excl a.windowId = true ∨
      cellSpansOverlap cellSpan a.cellSpan = false) :
    overlapScan cellSpan excl l = ⟨true, none⟩ := by
  induction l with
  | nil => rfl
  | cons x xs ih =>
    rw [overlapScan]
    have hrest : ∀ a ∈ xs, excludeMatches excl a.windowId = true ∨
        cellSpansOverlap cellSpan a.cellSpan = false :=
      fun a ha => h a (by simp [ha])
    split
    · exact ih hrest
    · rename_i hnoskip
      rcases h x (by simp) with hx | hx
      · simp [hx] at hnoskip
      · rw [if_neg (by simp [hx])]
        exact ih hrest

theorem overlapScan_first {cellSpan : CellSpan} {excl : Option String}
    {pre post : List CellAssignment} {a : CellAssignment}
    (hpre : ∀ b ∈ pre, excludeMatches excl b.windowId = true ∨
      cellSpansOverlap cellSpan b.cellSpan = false)
    (hskip : excludeMatches excl a.windowId = false)
    (hov : cellSpansOverlap cellSpan a.cellSpan = true) :
    overlapScan cellSpan excl (pre ++ a :: post) =
      ⟨false, some ("Cell span overlaps with window " ++ a.windowId ++ " at " ++
        formatCellSpan a.cellSpan)⟩ := by
  induction pre with
  | nil =>
    rw [List.nil_append, overlapScan, if_neg (by simp [hskip]),
      if_pos (by simp [hov])]
  | cons x xs ih =>
    rw [List.cons_append, overlapScan]
    have hrest : ∀ b ∈ xs, excludeMatches excl b.windowId = true ∨
        cellSpansOverlap cellSpan b.cellSpan = false :=
      fun b hb => hpre b (by simp [hb])
    split
    · exact ih hrest
    · rename_i hnoskip
      rcases hpre x (by simp) with hx | hx
      · simp [hx] at hnoskip
      · rw [if_neg (by simp [hx])]
        exact ih hrest

theorem getWindowCellSpan_mem {wid : String} {st : GridState} {S : CellSpan}
    (h : getWindowCellSpan wid st = some S) :
    ∃ a ∈ st.assignments, a.windowId = wid ∧ a.cellSpan = S := by
  unfold getWindowCellSpan at h
  cases hf : st.assignments.find? (fun a => a.windowId == wid) with
  | none => rw [hf] at h; simp at h
  | some a =>
    rw [hf] at h
    have hmem := List.mem_of_find?_eq_some hf
    have hp := List.find?_some hf
    simp only [beq_iff_eq] at hp
    simp only [Option.some.injEq] at h
    exact ⟨a, hmem, hp, h⟩

theorem validateCellSpan_false_of_mem {T : CellSpan} {st : GridState}
    {excl : Option String} {a : CellAssignment} (ha : a ∈ st.assignments)
    (hskip : excludeMatches excl a.windowId = false)
    (hov : cellSpansOverlap T a.cellSpan = true) :
    (validateCellSpan T st excl).valid = false := by
  unfold validateCellSpan
  split
  · rfl
  · exact overlapScan_valid_false ha hskip hov

/-- C2 (amended): `validateCellSpan` performs bounds checking before
overlap checking.  For every state in which window `A` is assigned span
`S`: validating a span overlapping `S` without `excludeWindowId` (or
with a different `excludeWindowId`) returns invalid; when the validated
span is within bounds, the reported error names the earliest
non-excluded overlapping assignment in the assignment list (hence `A`
and `A`'s span whenever `A`'s assignment is the first such overlap);
and validating with `excludeWindowId = A` (for a non-empty id `A`)
skips `A`'s assignments and, if no other assignment overlaps and the
span is in bounds, returns valid. -/
theorem validateCellSpan_overlap_behaviour :
    (∀ (st : GridState) (A : String) (S T : CellSpan) (excl : Option String),
        getWindowCellSpan A st = some S → cellSpansOverlap T S = true →
        (∀ e, excl = some e → e ≠ A) →
        (validateCellSpan T st excl).valid = false) ∧
    (∀ (st : GridState) (T : CellSpan) (excl : Option String)
        (pre : List CellAssignment) (a : CellAssignment) (post : List CellAssignment),
        st.assignments = pre ++ a :: post →
        (∀ b ∈ pre, excludeMatches excl b.windowId = true ∨
          cellSpansOverlap T b.cellSpan = false) →
        excludeMatches excl a.windowId = false →
        cellSpansOverlap T a.cellSpan = true →
        isWithinGrid T st.config = true →
        validateCellSpan T st excl =
          ⟨false, some ("Cell span overlaps with window " ++ a.windowId ++ " at " ++
            formatCellSpan a.cellSpan)⟩) ∧
    (∀ (st : GridState) (A : String) (S T : CellSpan),
        getWindowCellSpan A st = some S → A ≠ "" →
        isWithinGrid T st.config = true →
        (∀ b ∈ st.assignments, b.windowId ≠ A → cellSpansOverlap T b.cellSpan = false) →
        validateCellSpan T st (some A) = ⟨true, none⟩) := by
  refine ⟨?_, ?_, ?_⟩
  · intro st A S T excl hA hov hexcl
    obtain ⟨a, hmem, hid, hsp⟩ := getWindowCellSpan_mem hA
    apply validateCellSpan_false_of_mem hmem _ (hsp ▸ hov)
    cases excl with
    | none => rfl
    | some e =>
      have hne : e ≠ A := hexcl e rfl
      simp only [excludeMatches, hid, Bool.and_eq_false_iff, beq_eq_false_iff_ne]
      right
      exact fun hAe => hne hAe.symm
  · intro st T excl pre a post hsplit hpre hskip hov hbounds
    unfold validateCellSpan
    rw [if_neg (by simp [hbounds]), hsplit]
    exact overlapScan_first hpre hskip hov
  · intro st A S T hA hAne hbounds hsafe
    unfold validateCellSpan
    rw [if_neg (by simp [hbounds])]
    apply overlapScan_all_ok
    intro b hb
    by_cases hid : b.windowId = A
    · left
      simp [excludeMatches, hid, hAne]
    · right
      exact hsafe b hb hid

/-! ### Concrete-string evaluation lemmas for the counterexample and
witnesses (the column-letter loop is defined by well-founded recursion,
so concrete values are obtained by unfolding one step) -/

theorem colLetters_zero : colLetters 0 = ['A'] := by
  rw [colLetters]
  decide

theorem colLetters_one : colLetters 1 = ['B'] := by
  rw [colLetters]
  decide

theorem natDigits_one : natDigits 1 = ['1'] := by
  rw [natDigits]
  decide

theorem natDigits_two : natDigits 2 = ['2'] := by
  rw [natDigits]
  decide

theorem cellToExcel_00 : cellToExcel 0 0 = "A1" := by
  unfold cellToExcel
  rw [colLetters_zero]
  have h : intDigits (0 + 1) = ['1'] := by
    rw [intDigits, if_neg (by decide), show ((0 + 1 : Int)).toNat = 1 from rfl,
      natDigits_one]
  rw [h]
  decide

theorem cellToExcel_11 : cellToExcel 1 1 = "B2" := by
  unfold cellToExcel
  rw [colLetters_one]
  have h : intDigits (1 + 1) = ['2'] := by
    rw [intDigits, if_neg (by decide), show ((1 + 1 : Int)).toNat = 2 from rfl,
      natDigits_two]
  rw [h]
  decide

theorem formatCellSpan_a1 : formatCellSpan ⟨0, 0, 1, 1⟩ = "A1" := by
  simp only [formatCellSpan]
  norm_num
  exact cellToExcel_00

theorem formatCellSpan_b2 : formatCellSpan ⟨1, 1, 1, 1⟩ = "B2" := by
  simp only [formatCellSpan]
  norm_num
  exact cellToExcel_11

/-- C2 counterexample: in the state whose assignment list holds window
"B" at A1 before window "A" at B2, validating the span A1:B2 (which
overlaps "A"'s span) without `excludeWindowId` reports the overlap
against "B", not against "A": the claim's description of the error as
naming `A` and `A`'s span fails. -/
theorem validateCellSpan_overlap_counterexample :
    getWindowCellSpan "A"
        ⟨0, ⟨3, 3, 0, 4, 4, 0, 0, 0, 0⟩,
          [⟨"B", ⟨0, 0, 1, 1⟩⟩, ⟨"A", ⟨1, 1, 1, 1⟩⟩], "t"⟩ = some ⟨1, 1, 1, 1⟩ ∧
    cellSpansOverlap ⟨0, 0, 2, 2⟩ ⟨1, 1, 1, 1⟩ = true ∧
    validateCellSpan ⟨0, 0, 2, 2⟩
        ⟨0, ⟨3, 3, 0, 4, 4, 0, 0, 0, 0⟩,
          [⟨"B", ⟨0, 0, 1, 1⟩⟩, ⟨"A", ⟨1, 1, 1, 1⟩⟩], "t"⟩ none =
      ⟨false, some "Cell span overlaps with window B at A1"⟩ ∧
    ("Cell span overlaps with window B at A1" : String) ≠
      "Cell span overlaps with window A at " ++ formatCellSpan ⟨1, 1, 1, 1⟩ := by
  refine ⟨by decide, by decide, ?_, ?_⟩
  · unfold validateCellSpan
    rw [if_neg (by decide)]
    rw [overlapScan, if_neg (by decide), if_pos (by decide)]
    rw [formatCellSpan_a1]
    decide
  · rw [formatCellSpan_b2]
    decide

/-- Witness for C2 (amended), at the state holding "B" at A1 and "A" at
B2, exercising all three conjuncts. -/
theorem validateCellSpan_overlap_behaviour_witness :
    (validateCellSpan ⟨0, 0, 2, 2⟩
        ⟨0, ⟨3, 3, 0, 4, 4, 0, 0, 0, 0⟩,
          [⟨"B", ⟨0, 0, 1, 1⟩⟩, ⟨"A", ⟨1, 1, 1, 1⟩⟩], "t"⟩ none).valid = false ∧
    validateCellSpan ⟨0, 0, 2, 2⟩
        ⟨0, ⟨3, 3, 0, 4, 4, 0, 0, 0, 0⟩,
          [⟨"B", ⟨0, 0, 1, 1⟩⟩, ⟨"A", ⟨1, 1, 1, 1⟩⟩], "t"⟩ none =
      ⟨false, some ("Cell span overlaps with window " ++ "B" ++ " at " ++
        formatCellSpan ⟨0, 0, 1, 1⟩)⟩ ∧
    validateCellSpan ⟨2, 2, 1, 1⟩
        ⟨0, ⟨3, 3, 0, 4, 4, 0, 0, 0, 0⟩,
          [⟨"A", ⟨2, 2, 1, 1⟩⟩], "t"⟩ (some "A") = ⟨true, none⟩ :=
  ⟨validateCellSpan_overlap_behaviour.1
      ⟨0, ⟨3, 3, 0, 4, 4, 0, 0, 0, 0⟩,
        [⟨"B", ⟨0, 0, 1, 1⟩⟩, ⟨"A", ⟨1, 1, 1, 1⟩⟩], "t"⟩
      "A" ⟨1, 1, 1, 1⟩ ⟨0, 0, 2, 2⟩ none (by decide) (by decide)
      (fun e h => nomatch h),
    validateCellSpan_overlap_behaviour.2.1
      ⟨0, ⟨3, 3, 0, 4, 4, 0, 0, 0, 0⟩,
        [⟨"B", ⟨0, 0, 1, 1⟩⟩, ⟨"A", ⟨1, 1, 1, 1⟩⟩], "t"⟩
      ⟨0, 0, 2, 2⟩ none [] ⟨"B", ⟨0, 0, 1, 1⟩⟩ [⟨"A", ⟨1, 1, 1, 1⟩⟩]
      rfl (by decide) (by decide) (by decide) (by decide),
    validateCellSpan_overlap_behaviour.2.2
      ⟨0, ⟨3, 3, 0, 4, 4, 0, 0, 0, 0⟩, [⟨"A", ⟨2, 2, 1, 1⟩⟩], "t"⟩
      "A" ⟨2, 2, 1, 1⟩ ⟨2, 2, 1, 1⟩ (by decide) (by decide) (by decide)
      (by decide)⟩

/-! ### First-fit search lemmas -/

/-- A span covers the grid cell `(r, c)`. -/
def coversCell (span : CellSpan) (r c : Int) : Prop :=
  span.startRow ≤ r ∧ r < span.startRow + span.rowSpan ∧
    span.startColumn ≤ c ∧ c < span.startColumn + span.columnSpan

instance (span : CellSpan) (r c : Int) : Decidable (coversCell span r c) := by
  unfold coversCell
  infer_instance

theorem mem_candidateOrigins {rows columns rowSpan columnSpan r c : Int} :
    (r, c) ∈ candidateOrigins rows columns rowSpan columnSpan ↔
      0 ≤ r ∧ r ≤ rows - rowSpan ∧ 0 ≤ c ∧ c ≤ columns - columnSpan := by
  unfold candidateOrigins
  rw [List.mem_flatMap]
  constructor
  · rintro ⟨a, ha, hmem⟩
    rw [List.mem_range] at ha
    rw [List.mem_map] at hmem
    obtain ⟨b, hb, heq⟩ := hmem
    rw [List.mem_range] at hb
    rw [Prod.mk.injEq] at heq
    obtain ⟨h1, h2⟩ := heq
    simp only [Int.ofNat_eq_natCast] at h1 h2
    omega
  · intro h
    obtain ⟨h1, h2, h3, h4⟩ := h
    refine ⟨r.toNat, ?_, ?_⟩
    · rw [List.mem_range]
      omega
    · rw [List.mem_map]
      refine ⟨c.toNat, ?_, ?_⟩
      · rw [List.mem_range]
        omega
      · rw [Prod.mk.injEq]
        constructor <;> simp only [Int.ofNat_eq_natCast] <;> omega

theorem candidateOrigins_pairwise (rows columns rowSpan columnSpan : Int) :
    List.Pairwise (fun x y : Int × Int => x.1 < y.1 ∨ (x.1 = y.1 ∧ x.2 < y.2))
      (candidateOrigins rows columns rowSpan columnSpan) := by
  unfold candidateOrigins
  rw [List.pairwise_flatMap]
  constructor
  · intro a _
    rw [List.pairwise_map]
    refine List.Pairwise.imp ?_ (List.pairwise_lt_range _)
    intro x y hxy
    right
    refine ⟨rfl, ?_⟩
    simp only [Int.ofNat_eq_natCast]
    omega
  · refine List.Pairwise.imp ?_ (List.pairwise_lt_range _)
    intro a b hab x hx y hy
    rw [List.mem_map] at hx hy
    obtain ⟨xa, _, hxe⟩ := hx
    obtain ⟨ya, _, hye⟩ := hy
    subst hxe
    subst hye
    left
    dsimp only
    simp only [Int.ofNat_eq_natCast]
    omega

theorem find?_split {α : Type} {p : α → Bool} :
    ∀ {l : List α} {a : α}, l.find? p = some a →
      ∃ l1 l2, l = l1 ++ a :: l2 ∧ ∀ b ∈ l1, p b = false := by
  intro l
  induction l with
  | nil => intro a h; simp at h
  | cons x xs ih =>
    intro a h
    by_cases hp : p x = true
    · rw [List.find?_cons_of_pos _ hp, Option.some.injEq] at h
      subst h
      exact ⟨[], xs, rfl, by simp⟩
    · rw [List.find?_cons_of_neg _ hp] at h
      obtain ⟨l1, l2, heq, hall⟩ := ih h
      refine ⟨x :: l1, l2, by rw [heq, List.cons_append], ?_⟩
      intro b hb
      rcases List.mem_cons.mp hb with rfl | hbm
      · simpa using hp
      · exact hall b hbm

theorem overlap_of_covers {T aspan : CellSpan}
    (h1 : 1 ≤ T.rowSpan) (h2 : 1 ≤ T.columnSpan)
    (hcov : coversCell aspan T.startRow T.startColumn) :
    cellSpansOverlap T aspan = true := by
  unfold coversCell at hcov
  simp only [cellSpansOverlap, Bool.not_eq_true', Bool.or_eq_false_iff,
    decide_eq_false_iff_not]
  omega

/-- C3: `findAvailableSpan` is a deterministic first-fit search: a
returned span has the requested dimensions, lies at an in-range
row-major candidate origin passing `validateCellSpan`, and every
row-major-earlier in-range origin fails validation; if the requested
size exceeds the grid's dimensions the result is `none` for every
assignment list (no existing assignment is consulted); and on a fully
packed grid (every cell covered by some assignment) any request with
positive spans yields `none`. -/
theorem findAvailableSpan_first_fit :
    (∀ (rowSpan columnSpan : Int) (st : GridState) (sp : CellSpan),
        findAvailableSpan rowSpan columnSpan st = some sp →
        sp.rowSpan = rowSpan ∧ sp.columnSpan = columnSpan ∧
        0 ≤ sp.startRow ∧ sp.startRow ≤ st.config.rows - rowSpan ∧
        0 ≤ sp.startColumn ∧ sp.startColumn ≤ st.config.columns - columnSpan ∧
        (validateCellSpan sp st none).valid = true ∧
        (∀ r c : Int, 0 ≤ r → r ≤ st.config.rows - rowSpan →
          0 ≤ c → c ≤ st.config.columns - columnSpan →
          (r < sp.startRow ∨ (r = sp.startRow ∧ c < sp.startColumn)) →
          (validateCellSpan ⟨r, c, rowSpan, columnSpan⟩ st none).valid = false)) ∧
    (∀ (rowSpan columnSpan desktopIndex : Int) (config : GridConfig)
        (assignments : List CellAssignment) (lastUpdated : String),
        config.rows < rowSpan ∨ config.columns < columnSpan →
        findAvailableSpan rowSpan columnSpan
          ⟨desktopIndex, config, assignments, lastUpdated⟩ = none) ∧
    (∀ (rowSpan columnSpan : Int) (st : GridState),
        1 ≤ rowSpan → 1 ≤ columnSpan →
        (∀ r c : Int, 0 ≤ r → r < st.config.rows → 0 ≤ c → c < st.config.columns →
          ∃ a ∈ st.assignments, coversCell a.cellSpan r c) →
        findAvailableSpan rowSpan columnSpan st = none) := by
  refine ⟨?_, ?_, ?_⟩
  · intro rowSpan columnSpan st sp h
    unfold findAvailableSpan at h
    cases hf : (candidateOrigins st.config.rows st.config.columns rowSpan
        columnSpan).find?
        (fun rc => (validateCellSpan ⟨rc.1, rc.2, rowSpan, columnSpan⟩ st none).valid) with
    | none => rw [hf] at h; simp at h
    | some rc =>
      rw [hf, Option.some.injEq] at h
      subst h
      have hvalid := List.find?_some hf
      have hmem := List.mem_of_find?_eq_some hf
      have hbounds := mem_candidateOrigins.mp hmem
      refine ⟨rfl, rfl, hbounds.1, hbounds.2.1, hbounds.2.2.1, hbounds.2.2.2,
        hvalid, ?_⟩
      intro r c hr1 hr2 hc1 hc2 hearlier
      have hearlier2 : r < rc.1 ∨ (r = rc.1 ∧ c < rc.2) := hearlier
      obtain ⟨l1, l2, hsplit, hfail⟩ := find?_split hf
      have hmem2 : (r, c) ∈ candidateOrigins st.config.rows st.config.columns
          rowSpan columnSpan := mem_candidateOrigins.mpr ⟨hr1, hr2, hc1, hc2⟩
      rw [hsplit] at hmem2
      rcases List.mem_append.mp hmem2 with hin1 | hin2
      · have := hfail _ hin1
        simpa using this
      · exfalso
        have hpw := candidateOrigins_pairwise st.config.rows st.config.columns
          rowSpan columnSpan
        rw [hsplit, List.pairwise_append] at hpw
        rcases List.mem_cons.mp hin2 with heq | hin3
        · rw [Prod.ext_iff] at heq
          omega
        · have hlt := (List.pairwise_cons.mp hpw.2.1).1 _ hin3
          have hlt2 : rc.1 < r ∨ (rc.1 = r ∧ rc.2 < c) := hlt
          omega
  · intro rowSpan columnSpan desktopIndex config assignments lastUpdated hbig
    unfold findAvailableSpan
    have hnone : (candidateOrigins config.rows config.columns rowSpan
        columnSpan).find?
        (fun rc => (validateCellSpan ⟨rc.1, rc.2, rowSpan, columnSpan⟩
          ⟨desktopIndex, config, assignments, lastUpdated⟩ none).valid) = none := by
      rw [List.find?_eq_none]
      intro x hx
      obtain ⟨h1, h2, h3, h4⟩ := mem_candidateOrigins.mp (show (x.1, x.2) ∈ _ from hx)
      omega
    rw [hnone]
  · intro rowSpan columnSpan st hrs hcs hpacked
    unfold findAvailableSpan
    have hnone : (candidateOrigins st.config.rows st.config.columns rowSpan
        columnSpan).find?
        (fun rc => (validateCellSpan ⟨rc.1, rc.2, rowSpan, columnSpan⟩ st none).valid)
          = none := by
      rw [List.find?_eq_none]
      intro x hx
      obtain ⟨h1, h2, h3, h4⟩ := mem_candidateOrigins.mp (show (x.1, x.2) ∈ _ from hx)
      obtain ⟨a, hamem, hacov⟩ := hpacked x.1 x.2 h1 (by omega) h3 (by omega)
      have hov : cellSpansOverlap ⟨x.1, x.2, rowSpan, columnSpan⟩ a.cellSpan = true :=
        overlap_of_covers hrs hcs hacov
      have hfalse : (validateCellSpan ⟨x.1, x.2, rowSpan, columnSpan⟩ st none).valid
          = false := validateCellSpan_false_of_mem hamem rfl hov
      simp [hfalse]
    rw [hnone]

/-- Witness for C3: first fit on a fresh 3-by-3 grid, the oversize
request, and a fully packed grid. -/
theorem findAvailableSpan_first_fit_witness :
    findAvailableSpan 1 1 ⟨0, ⟨3, 3, 0, 4, 4, 0, 0, 0, 0⟩, [], "t"⟩ =
        some ⟨0, 0, 1, 1⟩ ∧
    (validateCellSpan ⟨0, 0, 1, 1⟩ ⟨0, ⟨3, 3, 0, 4, 4, 0, 0, 0, 0⟩, [], "t"⟩
        none).valid = true ∧
    findAvailableSpan 4 4 ⟨0, ⟨3, 3, 0, 4, 4, 0, 0, 0, 0⟩, [], "t"⟩ = none ∧
    findAvailableSpan 2 2
        ⟨0, ⟨3, 3, 0, 4, 4, 0, 0, 0, 0⟩, [⟨"W", ⟨0, 0, 3, 3⟩⟩], "t"⟩ = none :=
  ⟨by decide,
    (findAvailableSpan_first_fit.1 1 1 ⟨0, ⟨3, 3, 0, 4, 4, 0, 0, 0, 0⟩, [], "t"⟩
      ⟨0, 0, 1, 1⟩ (by decide)).2.2.2.2.2.2.1,
    findAvailableSpan_first_fit.2.1 4 4 0 ⟨3, 3, 0, 4, 4, 0, 0, 0, 0⟩ [] "t"
      (Or.inl (by decide)),
    findAvailableSpan_first_fit.2.2 2 2
      ⟨0, ⟨3, 3, 0, 4, 4, 0, 0, 0, 0⟩, [⟨"W", ⟨0, 0, 3, 3⟩⟩], "t"⟩
      (by decide) (by decide)
      (by
        intro r c h1 h2 h3 h4
        have h2b : r < 3 := h2
        have h4b : c < 3 := h4
        refine ⟨⟨"W", ⟨0, 0, 3, 3⟩⟩, by simp, ?_⟩
        unfold coversCell
        simp only
        omega)⟩

/-! ### Assignment and swap lemmas -/

/-- C6: `assignWindowToGrid` removes any prior assignment for the window
id before appending the new one, so the result holds exactly one
assignment for that id (the new span); `lastUpdated` is refreshed, the
other state fields are unchanged, and re-assigning the same id is
idempotent (the second assignment fully supersedes the first). -/
theorem assignWindowToGrid_spec :
    ∀ (windowId : String) (cellSpan sp2 : CellSpan) (st : GridState) (now now2 : String),
      (assignWindowToGrid windowId cellSpan st now).assignments =
        st.assignments.filter (fun a => !(a.windowId == windowId)) ++
          [⟨windowId, cellSpan⟩] ∧
      (assignWindowToGrid windowId cellSpan st now).assignments.filter
        (fun a => a.windowId == windowId) = [⟨windowId, cellSpan⟩] ∧
      (assignWindowToGrid windowId cellSpan st now).lastUpdated = now ∧
      (assignWindowToGrid windowId cellSpan st now).desktopIndex = st.desktopIndex ∧
      (assignWindowToGrid windowId cellSpan st now).config = st.config ∧
      assignWindowToGrid windowId sp2 (assignWindowToGrid windowId cellSpan st now)
          now2 = assignWindowToGrid windowId sp2 st now2 := by
  intro windowId cellSpan sp2 st now now2
  have hsame : ∀ (l : List CellAssignment),
      List.filter (fun a => !(a.windowId == windowId))
          (List.filter (fun a => !(a.windowId == windowId)) l) =
        List.filter (fun a => !(a.windowId == windowId)) l := by
    intro l
    rw [List.filter_filter]
    apply List.filter_congr
    intro a _
    cases h : a.windowId == windowId <;> simp [h]
  refine ⟨rfl, ?_, rfl, rfl, rfl, ?_⟩
  · have h1 : List.filter (fun a => a.windowId == windowId)
        (List.filter (fun a => !(a.windowId == windowId)) st.assignments) = [] := by
      rw [List.filter_filter]
      apply List.filter_eq_nil_iff.mpr
      intro a _
      cases h : a.windowId == windowId <;> simp [h]
    have h2 : List.filter (fun a => a.windowId == windowId)
        ([⟨windowId, cellSpan⟩] : List CellAssignment) = [⟨windowId, cellSpan⟩] := by
      simp
    simp only [assignWindowToGrid, List.filter_append, h1, h2, List.nil_append]
  · simp only [assignWindowToGrid]
    rw [GridState.mk.injEq]
    refine ⟨rfl, rfl, ?_, rfl⟩
    rw [List.filter_append]
    have h3 : List.filter (fun a => !(a.windowId == windowId))
        ([⟨windowId, cellSpan⟩] : List CellAssignment) = [] := by
      simp
    rw [h3, List.append_nil, hsame]

theorem find?_map_windowId {l : List CellAssignment}
    {f : CellAssignment → CellAssignment}
    (hpres : ∀ a, (f a).windowId = a.windowId) (wid : String) :
    (l.map f).find? (fun a => a.windowId == wid) =
      (l.find? (fun a => a.windowId == wid)).map f := by
  induction l with
  | nil => rfl
  | cons x xs ih =>
    rw [List.map_cons]
    simp only [List.find?_cons, hpres]
    cases hcond : x.windowId == wid
    · simp only [hcond, cond_false, ih]
    · simp only [hcond, cond_true, Option.map_some']

theorem getWindowCellSpan_find? {wid : String} {st : GridState} {S : CellSpan}
    (h : getWindowCellSpan wid st = some S) :
    ∃ a0, st.assignments.find? (fun a => a.windowId == wid) = some a0 ∧
      a0.windowId = wid ∧ a0.cellSpan = S := by
  unfold getWindowCellSpan at h
  cases hf : st.assignments.find? (fun a => a.windowId == wid) with
  | none => rw [hf] at h; simp at h
  | some a0 =>
    rw [hf] at h
    simp only [Option.some.injEq] at h
    exact ⟨a0, rfl, by simpa using List.find?_some hf, h⟩

/-- C7: `swapWindowPositions` exchanges the two windows' spans exactly
when both are assigned, leaving the assignment count unchanged and
refreshing `lastUpdated`; when either window has no assignment it
signals the precondition error and produces no state at all (no partial
swap). -/
theorem swapWindowPositions_spec :
    (∀ (st : GridState) (id1 id2 : String) (s1 s2 : CellSpan) (now : String),
        getWindowCellSpan id1 st = some s1 → getWindowCellSpan id2 st = some s2 →
        ∃ st2, swapWindowPositions id1 id2 st now = .ok st2 ∧
          getWindowCellSpan id1 st2 = some s2 ∧
          getWindowCellSpan id2 st2 = some s1 ∧
          st2.assignments.length = st.assignments.length ∧
          st2.lastUpdated = now) ∧
    (∀ (st : GridState) (id1 id2 : String) (now : String),
        getWindowCellSpan id1 st = none ∨ getWindowCellSpan id2 st = none →
        swapWindowPositions id1 id2 st now =
          .error "Both windows must have grid assignments to swap") := by
  constructor
  · intro st id1 id2 s1 s2 now h1 h2
    have hpres : ∀ a : CellAssignment,
        ((fun a : CellAssignment =>
          if a.windowId == id1 then { a with cellSpan := s2 }
          else if a.windowId == id2 then { a with cellSpan := s1 }
          else a) a).windowId = a.windowId := by
      intro a
      dsimp only
      split
      · rfl
      · split <;> rfl
    obtain ⟨a1, hfa1, hid1, hsp1⟩ := getWindowCellSpan_find? h1
    obtain ⟨a2, hfa2, hid2, hsp2⟩ := getWindowCellSpan_find? h2
    unfold swapWindowPositions
    rw [h1, h2]
    refine ⟨_, rfl, ?_, ?_, ?_, rfl⟩
    · unfold getWindowCellSpan
      rw [show ({ st with
          assignments := st.assignments.map fun a =>
            if a.windowId == id1 then { a with cellSpan := s2 }
            else if a.windowId == id2 then { a with cellSpan := s1 }
            else a,
          lastUpdated := now } : GridState).assignments
        = st.assignments.map fun a =>
            if a.windowId == id1 then { a with cellSpan := s2 }
            else if a.windowId == id2 then { a with cellSpan := s1 }
            else a from rfl]
      rw [find?_map_windowId hpres, hfa1]
      simp only [Option.map_some']
      rw [show (if a1.windowId == id1 then { a1 with cellSpan := s2 }
          else if a1.windowId == id2 then { a1 with cellSpan := s1 }
          else a1) = { a1 with cellSpan := s2 } from by rw [if_pos (by simp [hid1])]]
    · unfold getWindowCellSpan
      rw [show ({ st with
          assignments := st.assignments.map fun a =>
            if a.windowId == id1 then { a with cellSpan := s2 }
            else if a.windowId == id2 then { a with cellSpan := s1 }
            else a,
          lastUpdated := now } : GridState).assignments
        = st.assignments.map fun a =>
            if a.windowId == id1 then { a with cellSpan := s2 }
            else if a.windowId == id2 then { a with cellSpan := s1 }
            else a from rfl]
      rw [find?_map_windowId hpres, hfa2]
      simp only [Option.map_some']
      by_cases hcase : (a2.windowId == id1) = true
      · have hideq : id2 = id1 := by
          rw [← hid2]
          simpa using hcase
        subst hideq
        rw [hfa1] at hfa2
        simp only [Option.some.injEq] at hfa2
        subst hfa2
        rw [hsp1] at hsp2
        subst hsp2
        rw [show (if a1.windowId == id2 then { a1 with cellSpan := s1 }
            else if a1.windowId == id2 then { a1 with cellSpan := s1 }
            else a1) = { a1 with cellSpan := s1 } from by rw [if_pos (by simp [hid1])]]
      · rw [show (if a2.windowId == id1 then { a2 with cellSpan := s2 }
            else if a2.windowId == id2 then { a2 with cellSpan := s1 }
            else a2) = { a2 with cellSpan := s1 } from by
          rw [if_neg hcase, if_pos (by simp [hid2])]]
    · exact List.length_map _ _
  · intro st id1 id2 now h
    unfold swapWindowPositions
    rcases h with h | h
    · rw [h]
    · rw [h]
      cases hg : getWindowCellSpan id1 st <;> rfl

/-! ### Pixel arithmetic -/

theorem fdiv_bounds (a b : Int) (hb : 1 ≤ b) :
    Int.fdiv a b * b ≤ a ∧ 0 ≤ a - Int.fdiv a b * b ∧ a - Int.fdiv a b * b ≤ b - 1 := by
  rw [Int.fdiv_eq_ediv _ (by omega)]
  have h1 := Int.ediv_mul_le a (show b ≠ 0 by omega)
  have h2 := Int.emod_nonneg a (show b ≠ 0 by omega)
  have h3 := Int.emod_lt_of_pos a (show 0 < b by omega)
  have h4 := Int.emod_def a b
  refine ⟨h1, ?_, ?_⟩ <;> [linarith [h2, h4]; linarith [h3, h4]]

/-- C8: with floor division, `calculateSingleCellSize` guarantees
`cellSize * count + totalGap ≤ available` per axis for every config with
at least one row and one column, and `calculateRemainingSpace` equals
`available - (cellSize * count + totalGap)`, which lies in
`[0, count - 1]` per axis; concretely, for a 1920-by-1040 work area with
a 3-by-3 grid, 4px gaps and zero margins the cell size is 637-by-344 and
the remaining space is 1 horizontal, 0 vertical. -/
theorem calculateSingleCellSize_bounds :
    (∀ (config : GridConfig) (monitor : MonitorInfo),
        1 ≤ config.rows → 1 ≤ config.columns →
        (calculateSingleCellSize config monitor).width * config.columns +
            (config.columns - 1) * config.cellGapHorizontal ≤
          monitor.workAreaWidth - config.marginLeft - config.marginRight ∧
        (calculateSingleCellSize config monitor).height * config.rows +
            (config.rows - 1) * config.cellGapVertical ≤
          monitor.workAreaHeight - config.marginTop - config.marginBottom ∧
        (calculateRemainingSpace config monitor).horizontal =
          monitor.workAreaWidth - config.marginLeft - config.marginRight -
            ((calculateSingleCellSize config monitor).width * config.columns +
              (config.columns - 1) * config.cellGapHorizontal) ∧
        (calculateRemainingSpace config monitor).vertical =
          monitor.workAreaHeight - config.marginTop - config.marginBottom -
            ((calculateSingleCellSize config monitor).height * config.rows +
              (config.rows - 1) * config.cellGapVertical) ∧
        0 ≤ (calculateRemainingSpace config monitor).horizontal ∧
        (calculateRemainingSpace config monitor).horizontal ≤ config.columns - 1 ∧
        0 ≤ (calculateRemainingSpace config monitor).vertical ∧
        (calculateRemainingSpace config monitor).vertical ≤ config.rows - 1) ∧
    calculateSingleCellSize ⟨3, 3, 0, 4, 4, 0, 0, 0, 0⟩ ⟨0, 0, 1920, 1040⟩ =
        ⟨637, 344⟩ ∧
    calculateRemainingSpace ⟨3, 3, 0, 4, 4, 0, 0, 0, 0⟩ ⟨0, 0, 1920, 1040⟩ =
        ⟨1, 0⟩ := by
  refine ⟨?_, by decide, by decide⟩
  intro config monitor hrows hcols
  obtain ⟨hw1, hw2, hw3⟩ := fdiv_bounds
    (monitor.workAreaWidth - config.marginLeft - config.marginRight -
      (config.columns - 1) * config.cellGapHorizontal) config.columns hcols
  obtain ⟨hh1, hh2, hh3⟩ := fdiv_bounds
    (monitor.workAreaHeight - config.marginTop - config.marginBottom -
      (config.rows - 1) * config.cellGapVertical) config.rows hrows
  unfold calculateSingleCellSize calculateRemainingSpace
  dsimp only
  refine ⟨by linarith, by linarith, by ring, by ring, by linarith, by linarith,
    by linarith, by linarith⟩

/-- C9: `calculateCellRect` computes, for every span, config and
monitor, `position = workAreaOrigin + margin + startIndex * (cellSize + gap)`
and `size = span * cellSize + (span - 1) * gap` per axis, where
`cellSize` is the single-cell size; concretely, a 2-by-2 span at (0,0)
on a 1920-by-1040 work area with a 3-by-3 grid, 4px gaps and zero
margins yields the rectangle (0, 0, 1278, 692). -/
theorem calculateCellRect_formula :
    (∀ (cellSpan : CellSpan) (config : GridConfig) (monitor : MonitorInfo),
        calculateCellRect cellSpan config monitor =
          ⟨monitor.workAreaX + config.marginLeft +
             cellSpan.startColumn *
               ((calculateSingleCellSize config monitor).width +
                 config.cellGapHorizontal),
           monitor.workAreaY + config.marginTop +
             cellSpan.startRow *
               ((calculateSingleCellSize config monitor).height +
                 config.cellGapVertical),
           cellSpan.columnSpan * (calculateSingleCellSize config monitor).width +
             (cellSpan.columnSpan - 1) * config.cellGapHorizontal,
           cellSpan.rowSpan * (calculateSingleCellSize config monitor).height +
             (cellSpan.rowSpan - 1) * config.cellGapVertical⟩) ∧
    calculateCellRect ⟨0, 0, 2, 2⟩ ⟨3, 3, 0, 4, 4, 0, 0, 0, 0⟩ ⟨0, 0, 1920, 1040⟩ =
      ⟨0, 0, 1278, 692⟩ :=
  ⟨fun cellSpan config monitor => rfl, by decide⟩

/-- Witness for C8 at the 3-by-3 grid on the 1920-by-1040 work area. -/
theorem calculateSingleCellSize_bounds_witness :
    (1 : Int) ≤ 3 ∧
      ((calculateSingleCellSize ⟨3, 3, 0, 4, 4, 0, 0, 0, 0⟩ ⟨0, 0, 1920, 1040⟩).width *
            3 + 2 * 4 ≤ 1920 - 0 - 0 ∧
        (calculateSingleCellSize ⟨3, 3, 0, 4, 4, 0, 0, 0, 0⟩ ⟨0, 0, 1920, 1040⟩).height *
            3 + 2 * 4 ≤ 1040 - 0 - 0) := by
  refine ⟨by decide, ?_, ?_⟩
  · have h := (calculateSingleCellSize_bounds.1 ⟨3, 3, 0, 4, 4, 0, 0, 0, 0⟩
      ⟨0, 0, 1920, 1040⟩ (by decide) (by decide)).1
    exact h
  · have h := (calculateSingleCellSize_bounds.1 ⟨3, 3, 0, 4, 4, 0, 0, 0, 0⟩
      ⟨0, 0, 1920, 1040⟩ (by decide) (by decide)).2.1
    exact h

/-- Witness for C7 at a state assigning "win-1" to A1 and "win-2" to C3. -/
theorem swapWindowPositions_spec_witness :
    getWindowCellSpan "win-1"
        ⟨0, ⟨3, 3, 0, 4, 4, 0, 0, 0, 0⟩,
          [⟨"win-1", ⟨0, 0, 1, 1⟩⟩, ⟨"win-2", ⟨2, 2, 1, 1⟩⟩], "t"⟩ =
        some ⟨0, 0, 1, 1⟩ ∧
    (∃ st2, swapWindowPositions "win-1" "win-2"
        ⟨0, ⟨3, 3, 0, 4, 4, 0, 0, 0, 0⟩,
          [⟨"win-1", ⟨0, 0, 1, 1⟩⟩, ⟨"win-2", ⟨2, 2, 1, 1⟩⟩], "t"⟩ "t2" = .ok st2 ∧
      getWindowCellSpan "win-1" st2 = some ⟨2, 2, 1, 1⟩ ∧
      getWindowCellSpan "win-2" st2 = some ⟨0, 0, 1, 1⟩ ∧
      st2.assignments.length =
        (⟨0, ⟨3, 3, 0, 4, 4, 0, 0, 0, 0⟩,
          [⟨"win-1", ⟨0, 0, 1, 1⟩⟩, ⟨"win-2", ⟨2, 2, 1, 1⟩⟩], "t"⟩ :
            GridState).assignments.length ∧
      st2.lastUpdated = "t2") ∧
    swapWindowPositions "win-1" "missing"
        ⟨0, ⟨3, 3, 0, 4, 4, 0, 0, 0, 0⟩,
          [⟨"win-1", ⟨0, 0, 1, 1⟩⟩, ⟨"win-2", ⟨2, 2, 1, 1⟩⟩], "t"⟩ "t2" =
      .error "Both windows must have grid assignments to swap" :=
  ⟨by decide,
    swapWindowPositions_spec.1
      ⟨0, ⟨3, 3, 0, 4, 4, 0, 0, 0, 0⟩,
        [⟨"win-1", ⟨0, 0, 1, 1⟩⟩, ⟨"win-2", ⟨2, 2, 1, 1⟩⟩], "t"⟩
      "win-1" "win-2" ⟨0, 0, 1, 1⟩ ⟨2, 2, 1, 1⟩ "t2" (by decide) (by decide),
    swapWindowPositions_spec.2
      ⟨0, ⟨3, 3, 0, 4, 4, 0, 0, 0, 0⟩,
        [⟨"win-1", ⟨0, 0, 1, 1⟩⟩, ⟨"win-2", ⟨2, 2, 1, 1⟩⟩], "t"⟩
      "win-1" "missing" "t2" (Or.inr (by decide))⟩
